import Mathlib

/-!
Verification of the dynamic capability and change-notification engine of the
EpicMe journaling MCP server, shallowly embedded in Lean 4.

The embedding covers:
* the resource capability state machine of `resources.ts`
  (`initializeResources` / `updateResources`),
* the subscription registry of `subscriptions.ts`,
* the video-change bus and render pipeline of `video.ts`
  (`subscribe` / `notifySubscribers` / `createWrappedVideo`),
* the tag-suggestion reconciler of `sampling.ts`
  (`parseAndProcessTagSuggestions` / `suggestTagsSampling`),
* the elicitation-gated delete handlers of `tools.ts`
  (`elicitConfirmation`, `delete_tag`, `delete_entry`).

Machine numbers of the source are modelled as `Int` / `ℚ` with exact
arithmetic; JavaScript `Set` objects are modelled as duplicate-free lists in
insertion order.
-/

namespace EpicMe

/-! ## Capability state machine (`resources.ts`)

`initializeResources` registers four resources (the tag list, the single-tag
template, the entry template, the video template), each carrying an `enabled`
flag, and registers two listeners on the database change bus:

* line 11: `agent.db.subscribe(() => agent.mcp.sendResourceListChanged())`
* line 175: `agent.db.subscribe(updateResources)`

`updateResources` recounts entries, tags and videos and flips each flag so
that it matches its count predicate, guarding every `enable()` / `disable()`
call with the current flag value.
-/

/-- Enabled flags of the four registered resources of `resources.ts`:
`tagListResource`, `tagsResource`, `entryResource`, `videoResource`. -/
structure ResourceFlags where
  tagList : Bool
  tag : Bool
  entry : Bool
  video : Bool
deriving DecidableEq

/-- Current entity counts: `entries.length`, `tags.length`, `videos.length`
as recomputed at the top of `updateResources`. -/
structure Counts where
  entries : Nat
  tags : Nat
  videos : Nat
deriving DecidableEq

/-- The body of `updateResources` (resources.ts lines 149-173): recount and
flip each flag to its predicate, with the same `if (!x.enabled) x.enable()` /
`if (x.enabled) x.disable()` guards as the source. -/
def updateResources (c : Counts) (f : ResourceFlags) : ResourceFlags :=
  let f1 :=
    if 0 < c.tags then
      { f with tagList := if f.tagList then f.tagList else true,
               tag := if f.tag then f.tag else true }
    else
      { f with tagList := if f.tagList then false else f.tagList,
               tag := if f.tag then false else f.tag }
  let f2 :=
    if 0 < c.entries then
      { f1 with entry := if f1.entry then f1.entry else true }
    else
      { f1 with entry := if f1.entry then false else f1.entry }
  if 0 < c.videos then
    { f2 with video := if f2.video then f2.video else true }
  else
    { f2 with video := if f2.video then false else f2.video }

/-- Number of capability flags of the resource kind that flip between the old
and the new flag state during one recomputation. -/
def flipCount (old new : ResourceFlags) : Nat :=
  (if old.tagList = new.tagList then 0 else 1) +
  (if old.tag = new.tag then 0 else 1) +
  (if old.entry = new.entry then 0 else 1) +
  (if old.video = new.video then 0 else 1)

/-- One database ChangeSet dispatch as seen by `resources.ts`: the listener
registered at line 11 sends exactly one `sendResourceListChanged`
notification, and the listener registered at line 175 runs `updateResources`.
The result is the new flag state paired with the number of resource
list-changed notifications the module emitted for this batch. -/
def dispatchChangeSet (c : Counts) (f : ResourceFlags) : ResourceFlags × Nat :=
  (updateResources c f, 1)

/-- The flag state is consistent with the counts: each enabled flag equals its
count predicate. -/
def flagsConsistent (c : Counts) (f : ResourceFlags) : Prop :=
  f.tagList = decide (0 < c.tags) ∧
  f.tag = decide (0 < c.tags) ∧
  f.entry = decide (0 < c.entries) ∧
  f.video = decide (0 < c.videos)

instance (c : Counts) (f : ResourceFlags) : Decidable (flagsConsistent c f) := by
  unfold flagsConsistent; infer_instance

/-! ### Operation sequences for the invariant claim

Create/delete operations on entries and tags commit a database write and so
trigger a ChangeSet dispatch (which runs `updateResources`); video
creation/removal goes through the filesystem and the separate video bus, to
which `updateResources` is not subscribed. -/

/-- A create/delete operation on one of the three entity families. -/
inductive Op
  | createEntry
  | deleteEntry
  | createTag
  | deleteTag
  | addVideo
  | removeVideo
deriving DecidableEq

/-- Effect of an operation on the entity counts (deletion of a missing entity
is a no-op at count 0). -/
def applyOp (c : Counts) : Op → Counts
  | .createEntry => { c with entries := c.entries + 1 }
  | .deleteEntry => { c with entries := c.entries - 1 }
  | .createTag => { c with tags := c.tags + 1 }
  | .deleteTag => { c with tags := c.tags - 1 }
  | .addVideo => { c with videos := c.videos + 1 }
  | .removeVideo => { c with videos := c.videos - 1 }

/-- Whether the operation is a database mutation, i.e. produces a ChangeSet
dispatch on the database bus. -/
def isDbOp : Op → Bool
  | .createEntry => true
  | .deleteEntry => true
  | .createTag => true
  | .deleteTag => true
  | .addVideo => false
  | .removeVideo => false

/-- Combined system state: entity counts plus the resource capability flags. -/
structure SystemState where
  counts : Counts
  flags : ResourceFlags
deriving DecidableEq

/-- One operation: mutate the counts and, for database operations, settle the
ChangeSet dispatch (running `updateResources`). -/
def stepOp (s : SystemState) (op : Op) : SystemState :=
  let c := applyOp s.counts op
  if isDbOp op then ⟨c, (dispatchChangeSet c s.flags).1⟩ else ⟨c, s.flags⟩

/-- Run a sequence of operations from an initial state. -/
def runOps (s : SystemState) (ops : List Op) : SystemState :=
  ops.foldl stepOp s

/-! ## Subscription registry (`subscriptions.ts`)

`initializeSubscriptions` keeps a module-level `Set<string>` of subscribed
URIs, adds on a subscribe request, deletes on an unsubscribe request, and on
every database ChangeSet walks the changed entry ids and then the changed tag
ids, sending one `notifications/resources/updated` per changed id whose
canonical URI is currently subscribed.  A video-change listener does the same
against `epicme://videos/{name}` for each existing video.

URIs are the strings `epicme://entries/{id}`, `epicme://tags/{id}` and
`epicme://videos/{name}`; since the three templates have pairwise distinct
prefixes and the id/name renders injectively, the URI space is modelled as a
sum: `other` covers every client-supplied string that is not one of the three
canonical forms. -/

/-- A resource URI. -/
inductive Uri
  | entry (id : Int)
  | tag (id : Int)
  | video (name : String)
  | other (s : String)
deriving DecidableEq

/-- Human-readable title attached to an update notification, mirroring
`Entry ${entryId}` / `Tag ${tagId}` / `Video ${video}` of the source. -/
def uriTitle : Uri → String
  | .entry id => "Entry " ++ toString id
  | .tag id => "Tag " ++ toString id
  | .video name => "Video " ++ name
  | .other s => s

/-- `uriSubscriptions.add(params.uri)`: a JS `Set` keeps insertion order and
ignores a duplicate add. -/
def subscribeUri (subs : List Uri) (u : Uri) : List Uri :=
  if u ∈ subs then subs else subs ++ [u]

/-- `uriSubscriptions.delete(params.uri)`. -/
def unsubscribeUri (subs : List Uri) (u : Uri) : List Uri :=
  subs.filter (fun v => ¬(v = u))

/-- A committed ChangeSet: the ids of the entries and tags touched by one
storage mutation.  The storage layer produces each id at most once per batch
(the spec's `set<int>`), stated as `Nodup` hypotheses where needed. -/
structure ChangeSet where
  entries : List Int
  tags : List Int
deriving DecidableEq

/-- The database-change listener of `subscriptions.ts` (lines 27-47): one
update notification `{ uri, title }` per changed entry id, then per changed
tag id, whose URI is subscribed; nothing for unsubscribed URIs. -/
def dbNotifications (subs : List Uri) (ch : ChangeSet) : List (Uri × String) :=
  ch.entries.filterMap
    (fun id => if Uri.entry id ∈ subs
               then some (Uri.entry id, uriTitle (Uri.entry id)) else none)
  ++ ch.tags.filterMap
    (fun id => if Uri.tag id ∈ subs
               then some (Uri.tag id, uriTitle (Uri.tag id)) else none)

/-- The video-change listener of `subscriptions.ts` (lines 49-60): one update
notification per existing video whose URI is subscribed. -/
def videoNotifications (subs : List Uri) (videos : List String) :
    List (Uri × String) :=
  videos.filterMap
    (fun name => if Uri.video name ∈ subs
                 then some (Uri.video name, uriTitle (Uri.video name)) else none)

/-- Number of notifications in a batch that carry the URI `u`. -/
def notifCount (l : List (Uri × String)) (u : Uri) : Nat :=
  l.countP (fun p => decide (p.1 = u))

/-! ## Video-change bus (`video.ts` lines 5-36)

`subscribe` adds a listener to a module-level `Set`, `notifySubscribers`
iterates the set (insertion order) calling each listener with no surrounding
`try`/`catch`.  Each registered listener is modelled by whether its call
throws; the dispatch result records which listener indices were invoked and
the index of the listener whose exception escaped to the caller, if any. -/

/-- One registered video-change listener, abstracted to its observable
behaviour when called. -/
structure Listener where
  throws : Bool
deriving DecidableEq

/-- Result of one `notifySubscribers()` dispatch: the indices of the
listeners that were invoked, in invocation order, and the index of the
listener whose exception propagated out of the loop (`none` when the loop
ran to completion). -/
structure DispatchResult where
  invoked : List Nat
  escaped : Option Nat
deriving DecidableEq

/-- The `for (const subscriber of subscribers) subscriber()` loop of
`notifySubscribers`, starting at listener index `i`: each listener is
invoked in order; a throw aborts the loop and escapes. -/
def notifyFrom (i : Nat) : List Listener → DispatchResult
  | [] => ⟨[], none⟩
  | l :: rest =>
    if l.throws then ⟨[i], some i⟩
    else
      let r := notifyFrom (i + 1) rest
      ⟨i :: r.invoked, r.escaped⟩

/-- `notifySubscribers()` over the registered listener list. -/
def notifySubscribers (subs : List Listener) : DispatchResult :=
  notifyFrom 0 subs

/-! ## Render job pipeline (`video.ts` `createWrappedVideo`)

Mock mode (lines 58-71): with `mockTime > 0` and no cancellation the loop
`for (let i = 0; i < mockTime; i += step)` with `step = mockTime / 10`
reports `i / mockTime` then sleeps, breaking when the fraction reaches 1,
and after the loop reports exactly `1` before returning the video URI.
Numbers are modelled as exact rationals; the loop is written with an
explicit fuel that the theorems instantiate above the ten iterations the
source performs. -/

/-- The mock-progress loop body: current loop variable `i`, report
`i / mockTime` while it is below `1` and `i < mockTime`. -/
def mockLoop (mockTime step : ℚ) : Nat → ℚ → List ℚ
  | 0, _ => []
  | fuel + 1, i =>
    if i < mockTime then
      if 1 ≤ i / mockTime then []
      else (i / mockTime) :: mockLoop mockTime step fuel (i + step)
    else []

/-- All values passed to `onProgress` by a mock render with duration
`mockTime` and no cancellation: the loop reports, then the final
`onProgress?.(1)`. -/
def simulatedProgressCalls (mockTime : ℚ) : List ℚ :=
  mockLoop mockTime (mockTime / 10) 11 0 ++ [1]

/-- The mock branch of `createWrappedVideo`: the progress calls (the last of
which is issued before the return) and the returned video URI
`epicme://videos/wrapped-${year}.mp4`. -/
def simulatedRender (year : Int) (mockTime : ℚ) : List ℚ × String :=
  (simulatedProgressCalls mockTime,
   "epicme://videos/wrapped-" ++ toString year ++ ".mp4")

/-- Outcome of the real-mode ffmpeg promise. -/
inductive RenderOutcome
  | cancelled
  | success
  | failed (code : Option Int)
deriving DecidableEq

/-- Result of the `close` handler: the progress values it reports and how the
promise settles. -/
structure CloseResult where
  progressCalls : List ℚ
  outcome : RenderOutcome
deriving DecidableEq

/-- The `ffmpeg.on('close', ...)` handler (video.ts lines 217-227): if the
cancellation signal was aborted the promise rejects as cancelled — before
and regardless of the exit-code test — otherwise exit code `0` reports
progress `1` and resolves, and any other exit rejects with the exit code.
`code` is `none` when the subprocess was terminated by a signal. -/
def onClose (aborted : Bool) (code : Option Int) : CloseResult :=
  if aborted then ⟨[], .cancelled⟩
  else if code = some 0 then ⟨[1], .success⟩
  else ⟨[], .failed code⟩

/-! ## Slide timeline (`video.ts` lines 153-177)

With `n` slides over total duration `D`, slide `i` is assigned the slot
`[i * (D / n), (i + 1) * (D / n)]`, and its ffmpeg alpha expression is

`if(lt(t,start),0, if(lt(t,fadeInEnd),1, if(lt(t,fadeOutStart),1,
   if(lt(t,end),(end-t)/(slot/3), 0))))`

with `fadeInEnd = start + slot/3` and `fadeOutStart = end - slot/3`. -/

/-- Slot start of slide `i`: `perTextDuration * i`. -/
def slideStart (duration : ℚ) (n : Nat) (i : Nat) : ℚ :=
  (duration / n) * i

/-- Slot end of slide `i`: `perTextDuration * (i + 1)`. -/
def slideEnd (duration : ℚ) (n : Nat) (i : Nat) : ℚ :=
  (duration / n) * (i + 1)

/-- The alpha value of slide `i` at time `t`, transcribed from the drawtext
filter expression the source builds. -/
def slideAlpha (duration : ℚ) (n : Nat) (i : Nat) (t : ℚ) : ℚ :=
  let perText := duration / n
  let start := slideStart duration n i
  let stop := slideEnd duration n i
  let fadeInEnd := start + perText / 3
  let fadeOutStart := stop - perText / 3
  if t < start then 0
  else if t < fadeInEnd then 1
  else if t < fadeOutStart then 1
  else if t < stop then (stop - t) / (perText / 3)
  else 0

/-- Modelled from the spec: the alpha of a slide that "fades in over the
first third of the slot, holds, and fades out over the last third" — the
first third carries a linear ramp from 0 to 1, symmetric to the fade-out
ramp the source implements.  Used only to compare the claimed fade-in
behaviour against `slideAlpha`. -/
def specFadeInAlpha (duration : ℚ) (n : Nat) (i : Nat) (t : ℚ) : ℚ :=
  let perText := duration / n
  let start := slideStart duration n i
  let stop := slideEnd duration n i
  let fadeInEnd := start + perText / 3
  let fadeOutStart := stop - perText / 3
  if t < start then 0
  else if t < fadeInEnd then (t - start) / (perText / 3)
  else if t < fadeOutStart then 1
  else if t < stop then (stop - t) / (perText / 3)
  else 0

/-! ## Tag suggestion reconciler (`sampling.ts`)

The model response is parsed with `JSON.parse` and validated with
`z.array(z.union([existingTagSchema, newTagSchema]))`.  JSON values are
modelled with integer numerics (database ids are integers); a response whose
`JSON.parse` throws is represented as `none`. -/

/-- A parsed JSON value. -/
inductive JVal
  | jnull
  | jbool (b : Bool)
  | jnum (n : Int)
  | jstr (s : String)
  | jarr (elems : List JVal)
  | jobj (fields : List (String × JVal))

/-- One validated suggested tag: `existingTagSchema` is `{ id: number }`,
`newTagSchema` is `{ name: string, description?: string }`. -/
inductive SuggestedTag
  | existing (id : Int)
  | isNew (name : String) (description : Option String)
deriving DecidableEq

/-- `existingTagSchema.parse`: an object whose `id` field is a number; other
fields are stripped. -/
def parseExistingTag : JVal → Option SuggestedTag
  | .jobj fields =>
    match fields.lookup "id" with
    | some (.jnum n) => some (.existing n)
    | _ => none
  | _ => none

/-- `newTagSchema.parse`: an object whose `name` field is a string and whose
`description` field, when present, is a string (`z.string().optional()`
accepts only absence, not null). -/
def parseNewTag : JVal → Option SuggestedTag
  | .jobj fields =>
    match fields.lookup "name" with
    | some (.jstr s) =>
      match fields.lookup "description" with
      | none => some (.isNew s none)
      | some (.jstr d) => some (.isNew s (some d))
      | some _ => none
    | _ => none
  | _ => none

/-- `z.union([existingTagSchema, newTagSchema])`: try the variants in order. -/
def parseSuggestedTag (j : JVal) : Option SuggestedTag :=
  match parseExistingTag j with
  | some t => some t
  | none => parseNewTag j

/-- Element-wise validation of the array body: `z.array` fails the whole
parse as soon as any element matches neither union variant. -/
def parseSuggestedList : List JVal → Except String (List SuggestedTag)
  | [] => .ok []
  | e :: rest =>
    match parseSuggestedTag e with
    | none => .error "invalid_union"
    | some t =>
      match parseSuggestedList rest with
      | .ok ts => .ok (t :: ts)
      | .error msg => .error msg

/-- `responseSchema.parse(JSON.parse(modelResponse))` (sampling.ts lines
144-146): `none` stands for a `JSON.parse` throw; a non-array JSON value
fails `z.array`. -/
def parseSuggestedTags : Option JVal → Except String (List SuggestedTag)
  | none => .error "json_parse"
  | some (.jarr elems) => parseSuggestedList elems
  | some _ => .error "not_an_array"

/-- A tag row of the database. -/
structure Tag where
  id : Int
  name : String
  description : Option String
deriving DecidableEq

/-- The slice of database state the reconciler touches: tag rows, the
entry-tag link table, and the id the next created tag receives. -/
structure DBState where
  tags : List Tag
  entryTags : List (Int × Int)
  nextTagId : Int
deriving DecidableEq

/-- `db.createTag`: insert a new tag row with a fresh id. -/
def createTag (db : DBState) (name : String) (description : Option String) :
    DBState × Tag :=
  let t : Tag := ⟨db.nextTagId, name, description⟩
  ({ db with tags := db.tags ++ [t], nextTagId := db.nextTagId + 1 }, t)

/-- `db.addTagToEntry`: idempotent set-union insert into the link table. -/
def addTagToEntry (db : DBState) (entryId tagId : Int) : DBState :=
  if (entryId, tagId) ∈ db.entryTags then db
  else { db with entryTags := db.entryTags ++ [(entryId, tagId)] }

/-- Tags currently attached to an entry (`db.getEntryTags`). -/
def entryTagsOf (db : DBState) (entryId : Int) : List Tag :=
  db.tags.filter (fun t => (entryId, t.id) ∈ db.entryTags)

/-- The name-resolution pass (sampling.ts lines 148-159): a name-variant
suggestion whose name exactly matches an existing tag is rewritten to the
id-variant referencing that tag. -/
def resolveTag (existingTags : List Tag) : SuggestedTag → SuggestedTag
  | .isNew name d =>
    match existingTags.find? (fun t => t.name = name) with
    | some t => .existing t.id
    | none => .isNew name d
  | t => t

/-- `isNewTagSuggestion`: a name-variant whose name no existing tag uses. -/
def isNewTagSuggestion (existingTags : List Tag) : SuggestedTag → Bool
  | .isNew name _ => existingTags.all (fun t => ¬(t.name = name))
  | .existing _ => false

/-- `isExistingTagSuggestion`: an id-variant whose id exists and is not
already attached to the target entry. -/
def isExistingTagSuggestion (existingTags currentTags : List Tag) :
    SuggestedTag → Bool
  | .existing id =>
    (existingTags.any (fun t => t.id = id)) &&
    ¬(currentTags.any (fun t => t.id = id))
  | .isNew _ _ => false

/-- The id of an id-variant suggestion (`0` is unreachable: only applied to
`isExistingTagSuggestion` survivors). -/
def suggestedId : SuggestedTag → Int
  | .existing id => id
  | .isNew _ _ => 0

/-- Insertion into the `idsToAdd` JS `Set`: keeps first-insertion order,
ignores duplicates. -/
def insertId (ids : List Int) (id : Int) : List Int :=
  if id ∈ ids then ids else ids ++ [id]

/-- `parseAndProcessTagSuggestions` (sampling.ts lines 133-178): parse and
validate, resolve names against existing tags, partition into new-tag specs
and attachable existing references, create the new tags, and return the
updated database together with the ids to attach. -/
def parseAndProcessTagSuggestions (db : DBState) (modelResponse : Option JVal)
    (existingTags currentTags : List Tag) :
    Except String (DBState × List Int) :=
  match parseSuggestedTags modelResponse with
  | .error msg => .error msg
  | .ok suggestedTags =>
    let resolvedTags := suggestedTags.map (resolveTag existingTags)
    let suggestedNewTags := resolvedTags.filter (isNewTagSuggestion existingTags)
    let suggestedExistingTags :=
      resolvedTags.filter (isExistingTagSuggestion existingTags currentTags)
    let idsToAdd := (suggestedExistingTags.map suggestedId).foldl insertId []
    let created := suggestedNewTags.foldl
      (fun (acc : DBState × List Int) st =>
        match st with
        | .isNew name d =>
          let (db2, t) := createTag acc.1 name d
          (db2, insertId acc.2 t.id)
        | .existing _ => acc)
      (db, idsToAdd)
    .ok created

/-- `suggestTagsSampling` from the model response on (sampling.ts lines
59-101): on a parse or validation error the catch handler logs and rethrows
(second component `true`) and the attachment loop never runs; on success
every resolved id is attached to the entry. -/
def suggestTagsSampling (db : DBState) (entryId : Int)
    (modelResponse : Option JVal) : DBState × Bool :=
  let existingTags := db.tags
  let currentTags := entryTagsOf db entryId
  match parseAndProcessTagSuggestions db modelResponse existingTags currentTags with
  | .error _ => (db, true)
  | .ok (db2, idsToAdd) =>
    (idsToAdd.foldl (fun d tagId => addTagToEntry d entryId tagId) db2, false)

/-! ## Elicitation-gated deletion (`tools.ts`)

`elicitConfirmation` checks the client capabilities first: without a declared
`elicitation` capability it returns `true` without sending an `elicitInput`
request; otherwise it sends the request and confirms only an accepted
response whose content has `confirmed === true`.  The `delete_tag` and
`delete_entry` handlers look the entity up (`invariant` throws when absent),
ask for confirmation, and either return a cancelled result or perform the
delete and report success. -/

/-- Declared client capabilities, reduced to the presence of `elicitation`. -/
structure ClientCapabilities where
  elicitation : Bool
deriving DecidableEq

/-- Action field of an `elicitInput` response. -/
inductive ElicitAction
  | accept
  | decline
  | cancel
deriving DecidableEq

/-- An `elicitInput` response: the action and the optional
`content.confirmed` field. -/
structure ElicitResult where
  action : ElicitAction
  confirmed : Option Bool
deriving DecidableEq

/-- Whether the connected client declared the elicitation capability
(`capabilities?.elicitation` is falsy when the capability object is absent
or lacks the key). -/
def hasElicitation : Option ClientCapabilities → Bool
  | none => false
  | some c => c.elicitation

/-- `elicitConfirmation` (tools.ts lines 509-528); the second component
records whether an `elicitInput` request was sent to the client.
`response` is the client's answer to the request when one is sent. -/
def elicitConfirmation (caps : Option ClientCapabilities)
    (response : ElicitResult) : Bool × Bool :=
  if hasElicitation caps then
    ((match response.action with
      | .accept => response.confirmed = some true
      | _ => false : Bool), true)
  else (true, false)

/-- Observable trace of one delete-handler invocation. -/
structure DeleteTrace where
  elicitSent : Bool
  deleted : Bool
  success : Bool
deriving DecidableEq

/-- The `delete_tag` handler (tools.ts lines 285-334): `invariant` failure
when the tag is absent, otherwise confirmation gates the `db.deleteTag`
call. -/
def deleteTagHandler (db : DBState) (caps : Option ClientCapabilities)
    (response : ElicitResult) (id : Int) : Except String DeleteTrace :=
  match db.tags.find? (fun t => t.id = id) with
  | none => .error "Tag not found"
  | some _ =>
    let (confirmed, sent) := elicitConfirmation caps response
    if confirmed then .ok ⟨sent, true, true⟩
    else .ok ⟨sent, false, false⟩

/-- An entry row, reduced to what the delete handler consults. -/
structure Entry where
  id : Int
  title : String
deriving DecidableEq

/-- The `delete_entry` handler (tools.ts lines 137-186), same shape as
`delete_tag` over the entry table. -/
def deleteEntryHandler (entries : List Entry) (caps : Option ClientCapabilities)
    (response : ElicitResult) (id : Int) : Except String DeleteTrace :=
  match entries.find? (fun e => e.id = id) with
  | none => .error "Entry not found"
  | some _ =>
    let (confirmed, sent) := elicitConfirmation caps response
    if confirmed then .ok ⟨sent, true, true⟩
    else .ok ⟨sent, false, false⟩

/-! ## Helper lemmas -/

lemma updateResources_consistent (c : Counts) (f : ResourceFlags) :
    flagsConsistent c (updateResources c f) := by
  unfold updateResources flagsConsistent
  rcases f with ⟨tl, tg, en, vd⟩
  by_cases ht : 0 < c.tags <;> by_cases he : 0 < c.entries <;>
    by_cases hv : 0 < c.videos <;>
    cases tl <;> cases tg <;> cases en <;> cases vd <;>
    simp [ht, he, hv]

lemma runOps_append_single (s : SystemState) (ops : List Op) (op : Op) :
    runOps s (ops ++ [op]) = stepOp (runOps s ops) op := by
  simp [runOps, List.foldl_append]

lemma mem_subscribeUri (subs : List Uri) (u : Uri) : u ∈ subscribeUri subs u := by
  unfold subscribeUri
  split
  · assumption
  · simp

lemma not_mem_unsubscribeUri (subs : List Uri) (u : Uri) :
    u ∉ unsubscribeUri subs u := by
  unfold unsubscribeUri
  intro h
  have := (List.mem_filter.mp h).2
  simp at this

lemma countP_filterMap_uri (subs : List Uri) (f : Int → Uri) (l : List Int)
    (u : Uri) :
    (l.filterMap
        (fun i => if f i ∈ subs then some (f i, uriTitle (f i)) else none)).countP
        (fun p => decide (p.1 = u))
      = l.countP (fun i => decide (f i = u) && decide (f i ∈ subs)) := by
  induction l with
  | nil => rfl
  | cons a t ih =>
    by_cases hs : f a ∈ subs
    · by_cases hu : f a = u
      · subst hu
        simp [List.filterMap_cons, List.countP_cons, hs, ih]
      · simp [List.filterMap_cons, List.countP_cons, hs, hu, ih]
    · simp [List.filterMap_cons, List.countP_cons, hs, ih]

lemma countP_eq_one_of_nodup (l : List Int) (id : Int) (h : l.Nodup)
    (hm : id ∈ l) : l.countP (fun i => decide (i = id)) = 1 := by
  induction l with
  | nil => cases hm
  | cons a t ih =>
    rw [List.countP_cons]
    rcases List.mem_cons.mp hm with rfl | hmt
    · have hnot : id ∉ t := (List.nodup_cons.mp h).1
      have hz : t.countP (fun i => decide (i = id)) = 0 :=
        List.countP_eq_zero.mpr (by
          intro x hx
          simp only [decide_eq_true_eq]
          intro he
          exact hnot (he ▸ hx))
      simp [hz]
    · have hne : ¬(a = id) := by
        intro he
        exact (List.nodup_cons.mp h).1 (he ▸ hmt)
      simp [hne, ih (List.nodup_cons.mp h).2 hmt]

lemma notifCount_zero_of_not_mem (subs : List Uri) (ch : ChangeSet) (u : Uri)
    (h : u ∉ subs) : notifCount (dbNotifications subs ch) u = 0 := by
  unfold notifCount dbNotifications
  rw [List.countP_append, countP_filterMap_uri, countP_filterMap_uri]
  rw [List.countP_eq_zero.mpr, List.countP_eq_zero.mpr]
  · intro i _
    simp only [Bool.and_eq_true, decide_eq_true_eq]
    rintro ⟨he, hs⟩
    exact h (he ▸ hs)
  · intro i _
    simp only [Bool.and_eq_true, decide_eq_true_eq]
    rintro ⟨he, hs⟩
    exact h (he ▸ hs)

lemma notifCount_video_zero_of_not_mem (subs : List Uri) (videos : List String)
    (u : Uri) (h : u ∉ subs) : notifCount (videoNotifications subs videos) u = 0 := by
  unfold notifCount videoNotifications
  rw [List.countP_eq_zero.mpr]
  intro p hp
  rcases List.mem_filterMap.mp hp with ⟨name, _, hemit⟩
  by_cases hs : Uri.video name ∈ subs
  · rw [if_pos hs] at hemit
    cases hemit
    simp only [decide_eq_true_eq]
    intro he
    exact h (he ▸ hs)
  · rw [if_neg hs] at hemit
    cases hemit

lemma notifCount_entry_eq_one (subs : List Uri) (ch : ChangeSet) (id : Int)
    (hnd : ch.entries.Nodup) (hm : id ∈ ch.entries)
    (hsub : Uri.entry id ∈ subs) :
    notifCount (dbNotifications subs ch) (Uri.entry id) = 1 := by
  unfold notifCount dbNotifications
  rw [List.countP_append, countP_filterMap_uri, countP_filterMap_uri]
  have h1 : ch.entries.countP
      (fun i => decide (Uri.entry i = Uri.entry id) && decide (Uri.entry i ∈ subs))
      = ch.entries.countP (fun i => decide (i = id)) := by
    apply List.countP_congr
    intro i _
    by_cases he : i = id
    · subst he
      simp [hsub]
    · simp [he]
  have h2 : ch.tags.countP
      (fun i => decide (Uri.tag i = Uri.entry id) && decide (Uri.tag i ∈ subs))
      = 0 := by
    apply List.countP_eq_zero.mpr
    intro i _
    simp
  rw [h1, h2, countP_eq_one_of_nodup ch.entries id hnd hm]

lemma notifCount_tag_eq_one (subs : List Uri) (ch : ChangeSet) (id : Int)
    (hnd : ch.tags.Nodup) (hm : id ∈ ch.tags)
    (hsub : Uri.tag id ∈ subs) :
    notifCount (dbNotifications subs ch) (Uri.tag id) = 1 := by
  unfold notifCount dbNotifications
  rw [List.countP_append, countP_filterMap_uri, countP_filterMap_uri]
  have h1 : ch.entries.countP
      (fun i => decide (Uri.entry i = Uri.tag id) && decide (Uri.entry i ∈ subs))
      = 0 := by
    apply List.countP_eq_zero.mpr
    intro i _
    simp
  have h2 : ch.tags.countP
      (fun i => decide (Uri.tag i = Uri.tag id) && decide (Uri.tag i ∈ subs))
      = ch.tags.countP (fun i => decide (i = id)) := by
    apply List.countP_congr
    intro i _
    by_cases he : i = id
    · subst he
      simp [hsub]
    · simp [he]
  rw [h1, h2, countP_eq_one_of_nodup ch.tags id hnd hm]

lemma mockLoop_closed (mt : ℚ) (hmt : 0 < mt) :
    ∀ (fuel k : ℕ), 10 - k < fuel → k ≤ 10 →
    mockLoop mt (mt / 10) fuel ((k : ℚ) * (mt / 10)) =
      (List.range (10 - k)).map (fun j => ((k + j : ℕ) : ℚ) / 10) := by
  have hne : mt ≠ 0 := ne_of_gt hmt
  intro fuel
  induction fuel with
  | zero => intro k hf _; omega
  | succ fuel ih =>
    intro k hf hk
    by_cases hk10 : k = 10
    · subst hk10
      have hstop : ¬((10 : ℚ) * (mt / 10) < mt) := by
        rw [mul_div_assoc']
        rw [mul_comm, mul_div_assoc, div_self (by norm_num : (10 : ℚ) ≠ 0),
          mul_one]
        exact lt_irrefl mt
      simp only [mockLoop, Nat.cast_ofNat]
      rw [if_neg hstop]
      simp
    · have hklt : k < 10 := lt_of_le_of_ne hk hk10
      have hkq : (k : ℚ) < 10 := by exact_mod_cast hklt
      have hcond : (k : ℚ) * (mt / 10) < mt := by
        rw [mul_div_assoc']
        rw [div_lt_iff₀ (by norm_num : (0 : ℚ) < 10)]
        calc (k : ℚ) * mt < 10 * mt := by
              exact mul_lt_mul_of_pos_right hkq hmt
          _ = mt * 10 := mul_comm 10 mt
      have hprog : (k : ℚ) * (mt / 10) / mt = (k : ℚ) / 10 := by
        field_simp
        ring
      have hnotdone : ¬(1 ≤ (k : ℚ) * (mt / 10) / mt) := by
        rw [hprog]
        rw [not_le, div_lt_one (by norm_num : (0 : ℚ) < 10)]
        exact hkq
      have hnext : (k : ℚ) * (mt / 10) + mt / 10 = ((k + 1 : ℕ) : ℚ) * (mt / 10) := by
        push_cast
        ring
      simp only [mockLoop]
      rw [if_pos hcond, if_neg hnotdone, hprog, hnext,
        ih (k + 1) (by omega) (by omega)]
      have hrange : 10 - k = (10 - (k + 1)) + 1 := by omega
      rw [hrange, List.range_succ_eq_map]
      simp only [List.map_cons, List.map_map]
      congr 1
      apply List.map_congr_left
      intro j _
      simp only [Function.comp_apply, Nat.succ_eq_add_one]
      push_cast
      try ring

lemma notifyFrom_all_ok (subs : List Listener) :
    ∀ i, (∀ l ∈ subs, l.throws = false) →
    notifyFrom i subs = ⟨List.range' i subs.length, none⟩ := by
  induction subs with
  | nil =>
    intro i _
    simp [notifyFrom]
  | cons l rest ih =>
    intro i h
    have hl : l.throws = false := h l (by simp)
    have hrest : ∀ l2 ∈ rest, l2.throws = false := fun l2 hm => h l2 (by simp [hm])
    simp [notifyFrom, hl, ih (i + 1) hrest, List.range']

lemma notifyFrom_first_throw (subs : List Listener) :
    ∀ (k i : Nat) (lk : Listener), (∀ l ∈ subs.take k, l.throws = false) →
    subs[k]? = some lk → lk.throws = true →
    notifyFrom i subs = ⟨List.range' i (k + 1), some (k + i)⟩ := by
  induction subs with
  | nil =>
    intro k i lk _ hget _
    simp at hget
  | cons l rest ih =>
    intro k i lk hok hget hthrow
    cases k with
    | zero =>
      simp only [List.getElem?_cons_zero, Option.some.injEq] at hget
      subst hget
      simp [notifyFrom, hthrow, List.range']
    | succ k =>
      have hl : l.throws = false := by
        have := hok l (by simp [List.take_succ_cons])
        exact this
      have hok2 : ∀ l2 ∈ rest.take k, l2.throws = false := by
        intro l2 hm
        exact hok l2 (by simp [List.take_succ_cons, hm])
      have hget2 : rest[k]? = some lk := by
        simpa using hget
      have harith : k + (i + 1) = k + 1 + i := by omega
      simp [notifyFrom, hl, ih k (i + 1) lk hok2 hget2 hthrow, List.range',
        harith]

lemma parseSuggestedList_error (elems : List JVal)
    (h : ∃ e ∈ elems, parseSuggestedTag e = none) :
    ∃ msg, parseSuggestedList elems = .error msg := by
  induction elems with
  | nil =>
    rcases h with ⟨e, he, _⟩
    cases he
  | cons a rest ih =>
    rcases h with ⟨e, he, hne⟩
    rcases List.mem_cons.mp he with rfl | hmem
    · exact ⟨"invalid_union", by simp [parseSuggestedList, hne]⟩
    · by_cases ha : parseSuggestedTag a = none
      · exact ⟨"invalid_union", by simp [parseSuggestedList, ha]⟩
      · obtain ⟨t, ht⟩ := Option.ne_none_iff_exists'.mp ha
        obtain ⟨msg, hmsg⟩ := ih ⟨e, hmem, hne⟩
        exact ⟨msg, by simp [parseSuggestedList, ht, hmsg]⟩

lemma suggestTags_unchanged_of_parse_error (db : DBState) (entryId : Int)
    (mr : Option JVal) (h : ∃ msg, parseSuggestedTags mr = .error msg) :
    suggestTagsSampling db entryId mr = (db, true) := by
  rcases h with ⟨msg, hmsg⟩
  simp [suggestTagsSampling, parseAndProcessTagSuggestions, hmsg]

lemma simulatedProgressCalls_closed (mt : ℚ) (hmt : 0 < mt) :
    simulatedProgressCalls mt =
      [0, 1 / 10, 2 / 10, 3 / 10, 4 / 10, 5 / 10, 6 / 10, 7 / 10, 8 / 10,
        9 / 10, 1] := by
  unfold simulatedProgressCalls
  have h0 : (0 : ℚ) = ((0 : ℕ) : ℚ) * (mt / 10) := by norm_num
  rw [h0, mockLoop_closed mt hmt 11 0 (by norm_num) (by norm_num)]
  norm_num [List.range_succ]

end EpicMe

/-! # Claim theorems -/

namespace EpicMe

/-- C1, amended: every ChangeSet batch processed by the resource capability
module emits exactly one resource list-changed notification, whether or not
any capability flag flipped during recomputation: the listener of
resources.ts line 11 notifies unconditionally once per batch, so multiple
flips coalesce into one notification, but a zero-flip batch also emits one
notification rather than none. -/
theorem resource_list_changed_once_per_batch (c : Counts) (f : ResourceFlags) :
    (0 < flipCount f (dispatchChangeSet c f).1 →
      (dispatchChangeSet c f).2 = 1) ∧
    (dispatchChangeSet c f).2 = 1 :=
  ⟨fun _ => rfl, rfl⟩

/-- Witness for the amended C1 theorem at a concrete flipping batch: one tag
created from the empty state flips two resource capabilities and yields one
notification. -/
theorem resource_list_changed_once_per_batch_witness :
    0 < flipCount ⟨false, false, false, false⟩
        (dispatchChangeSet ⟨0, 1, 0⟩ ⟨false, false, false, false⟩).1 ∧
    (dispatchChangeSet ⟨0, 1, 0⟩ ⟨false, false, false, false⟩).2 = 1 :=
  ⟨by decide,
   (resource_list_changed_once_per_batch ⟨0, 1, 0⟩
      ⟨false, false, false, false⟩).1 (by decide)⟩

/-- C1 counterexample: a batch that flips zero capabilities of the resource
kind (counts and flags already agree: everything empty and disabled) still
emits one resource list-changed notification, contradicting the claim that
a zero-flip batch produces none. -/
theorem zero_flip_batch_still_notifies :
    flipCount ⟨false, false, false, false⟩
        (dispatchChangeSet ⟨0, 0, 0⟩ ⟨false, false, false, false⟩).1 = 0 ∧
    (dispatchChangeSet ⟨0, 0, 0⟩ ⟨false, false, false, false⟩).2 = 1 := by
  decide

/-- C2: for every sequence of create/delete operations and every final
database mutation, once that mutation's ChangeSet dispatch has settled (the
dispatch runs `updateResources`), each of the four resource capability flags
equals its predicate over the current counts — tag resources enabled iff the
tag count is positive, the entry resource iff the entry count is positive,
the video resource iff the video count is positive — so no flag reflects a
stale batch. -/
theorem flags_match_counts_after_dispatch (s : SystemState) (ops : List Op)
    (op : Op) (h : isDbOp op = true) :
    flagsConsistent (runOps s (ops ++ [op])).counts
      (runOps s (ops ++ [op])).flags := by
  rw [runOps_append_single]
  unfold stepOp
  rw [h]
  simpa [dispatchChangeSet] using
    updateResources_consistent (applyOp (runOps s ops).counts op)
      (runOps s ops).flags

/-- Witness for C2 at a concrete run: create a tag, an entry and a video,
then delete the tag; the final dispatch leaves all flags matching counts. -/
theorem flags_match_counts_after_dispatch_witness :
    isDbOp Op.deleteTag = true ∧
    flagsConsistent
      (runOps ⟨⟨0, 0, 0⟩, ⟨false, false, false, false⟩⟩
        ([Op.createTag, Op.createEntry, Op.addVideo] ++ [Op.deleteTag])).counts
      (runOps ⟨⟨0, 0, 0⟩, ⟨false, false, false, false⟩⟩
        ([Op.createTag, Op.createEntry, Op.addVideo] ++ [Op.deleteTag])).flags :=
  ⟨by decide,
   flags_match_counts_after_dispatch ⟨⟨0, 0, 0⟩, ⟨false, false, false, false⟩⟩
     [Op.createTag, Op.createEntry, Op.addVideo] Op.deleteTag (by decide)⟩

/-- C5: for every entry or tag URI, after subscribing, a ChangeSet containing
that entity's id yields exactly one resources/updated notification carrying
that URI — even when the batch also changed other entities — after a
subsequent unsubscribe the same ChangeSet yields zero notifications for it,
and no notification is ever emitted for a URI that is not subscribed (the
video listener included). -/
theorem subscription_notification_counts (subs : List Uri) (ch : ChangeSet)
    (id : Int) :
    (ch.entries.Nodup → id ∈ ch.entries →
      notifCount (dbNotifications (subscribeUri subs (Uri.entry id)) ch)
          (Uri.entry id) = 1 ∧
      notifCount
          (dbNotifications
            (unsubscribeUri (subscribeUri subs (Uri.entry id)) (Uri.entry id)) ch)
          (Uri.entry id) = 0) ∧
    (ch.tags.Nodup → id ∈ ch.tags →
      notifCount (dbNotifications (subscribeUri subs (Uri.tag id)) ch)
          (Uri.tag id) = 1 ∧
      notifCount
          (dbNotifications
            (unsubscribeUri (subscribeUri subs (Uri.tag id)) (Uri.tag id)) ch)
          (Uri.tag id) = 0) ∧
    (∀ u, u ∉ subs →
      notifCount (dbNotifications subs ch) u = 0 ∧
      ∀ videos, notifCount (videoNotifications subs videos) u = 0) := by
  refine ⟨fun hnd hm => ⟨?_, ?_⟩, fun hnd hm => ⟨?_, ?_⟩, fun u hu => ⟨?_, ?_⟩⟩
  · exact notifCount_entry_eq_one _ ch id hnd hm
      (mem_subscribeUri subs (Uri.entry id))
  · exact notifCount_zero_of_not_mem _ ch (Uri.entry id)
      (not_mem_unsubscribeUri _ (Uri.entry id))
  · exact notifCount_tag_eq_one _ ch id hnd hm
      (mem_subscribeUri subs (Uri.tag id))
  · exact notifCount_zero_of_not_mem _ ch (Uri.tag id)
      (not_mem_unsubscribeUri _ (Uri.tag id))
  · exact notifCount_zero_of_not_mem subs ch u hu
  · intro videos
    exact notifCount_video_zero_of_not_mem subs videos u hu

/-- Witness for C5 at a concrete state: no prior subscriptions, a batch that
changes entries 7 and 9 and tag 7; the subscribed entry URI for id 7 gets
exactly one notification and zero after unsubscribing. -/
theorem subscription_notification_counts_witness :
    ([7, 9] : List Int).Nodup ∧ (7 : Int) ∈ ([7, 9] : List Int) ∧
    (notifCount
        (dbNotifications (subscribeUri [] (Uri.entry 7)) ⟨[7, 9], [7]⟩)
        (Uri.entry 7) = 1 ∧
      notifCount
        (dbNotifications
          (unsubscribeUri (subscribeUri [] (Uri.entry 7)) (Uri.entry 7))
          ⟨[7, 9], [7]⟩)
        (Uri.entry 7) = 0) :=
  ⟨by decide, by decide,
   (subscription_notification_counts [] ⟨[7, 9], [7]⟩ 7).1 (by decide) (by decide)⟩

/-- C6: when the cancellation signal is already aborted as the render
subprocess closes, the close handler rejects with the cancelled outcome and
reports no progress — for every exit code, including 0, so cancellation wins
the race and the success path (resolve, final progress 1) never runs — while
a non-zero (or signal-terminated) exit without prior cancellation rejects
with a failed outcome carrying that exit code, an outcome distinct from
cancelled. -/
theorem cancellation_wins_close_race (code fcode : Option Int)
    (h : ¬(fcode = some 0)) :
    onClose true code = ⟨[], RenderOutcome.cancelled⟩ ∧
    onClose false fcode = ⟨[], RenderOutcome.failed fcode⟩ ∧
    RenderOutcome.failed fcode ≠ RenderOutcome.cancelled := by
  refine ⟨rfl, ?_, by simp⟩
  simp [onClose, h]

/-- Witness for C6: a subprocess that exits 0 under an aborted signal is
cancelled; exit code 1 without cancellation is a distinct failure. -/
theorem cancellation_wins_close_race_witness :
    ¬((some 1 : Option Int) = some 0) ∧
    (onClose true (some 0) = ⟨[], RenderOutcome.cancelled⟩ ∧
     onClose false (some 1) = ⟨[], RenderOutcome.failed (some 1)⟩ ∧
     RenderOutcome.failed (some 1) ≠ RenderOutcome.cancelled) :=
  ⟨by decide, cancellation_wins_close_race (some 0) (some 1) (by decide)⟩

/-- C7: in simulated render mode with any positive caller-supplied duration
and no cancellation, the progress callback receives exactly the sequence
0, 1/10, ..., 9/10, 1 — strictly increasing, starting at 0, advancing in
equal increments of one tenth, ending at exactly 1 — and the final 1 is
reported before the video URI is returned as the render's value. -/
theorem simulated_progress_sequence (year : Int) (mt : ℚ) (h : 0 < mt) :
    (simulatedRender year mt).1 =
      [0, 1 / 10, 2 / 10, 3 / 10, 4 / 10, 5 / 10, 6 / 10, 7 / 10, 8 / 10,
        9 / 10, 1] ∧
    (simulatedRender year mt).1.Chain' (fun a b => b = a + 1 / 10) ∧
    (simulatedRender year mt).1.Chain' (fun a b => a < b) ∧
    (simulatedRender year mt).1.head? = some 0 ∧
    (simulatedRender year mt).1.getLast? = some 1 ∧
    (simulatedRender year mt).2 =
      "epicme://videos/wrapped-" ++ toString year ++ ".mp4" := by
  have hc : (simulatedRender year mt).1 =
      [0, 1 / 10, 2 / 10, 3 / 10, 4 / 10, 5 / 10, 6 / 10, 7 / 10, 8 / 10,
        9 / 10, 1] := by
    simpa [simulatedRender] using simulatedProgressCalls_closed mt h
  refine ⟨hc, ?_, ?_, ?_, ?_, rfl⟩ <;> rw [hc] <;> norm_num [List.chain'_cons]

/-- Witness for C7 at the concrete duration 5: the progress sequence of a
mock render over 5 time units. -/
theorem simulated_progress_sequence_witness :
    (0 : ℚ) < 5 ∧
    ((simulatedRender 2024 5).1 =
      [0, 1 / 10, 2 / 10, 3 / 10, 4 / 10, 5 / 10, 6 / 10, 7 / 10, 8 / 10,
        9 / 10, 1] ∧
    (simulatedRender 2024 5).1.Chain' (fun a b => b = a + 1 / 10) ∧
    (simulatedRender 2024 5).1.Chain' (fun a b => a < b) ∧
    (simulatedRender 2024 5).1.head? = some 0 ∧
    (simulatedRender 2024 5).1.getLast? = some 1 ∧
    (simulatedRender 2024 5).2 =
      "epicme://videos/wrapped-" ++ toString (2024 : Int) ++ ".mp4") :=
  ⟨by norm_num, simulated_progress_sequence 2024 5 (by norm_num)⟩

/-- C9, amended: for a render with `n` slides over total duration `D`, slide
`i` is assigned the equal time slot `[i*(D/n), (i+1)*(D/n)]` — deterministic
in the slide count and the total duration alone — and within the slot the
slide's alpha is fully opaque from the very start of the slot (there is no
fade-in ramp over the first third: the expression yields 1 there), holds at
1 until the last third, fades out linearly over the last third, and is 0
outside the slot. -/
theorem slide_timeline (D : ℚ) (n i : Nat) (t : ℚ) (hD : 0 < D)
    (hn : 0 < n) :
    slideStart D n i = (D / n) * i ∧
    slideEnd D n i = (D / n) * (i + 1) ∧
    (t < slideStart D n i → slideAlpha D n i t = 0) ∧
    (slideStart D n i ≤ t → t < slideEnd D n i - (D / n) / 3 →
      slideAlpha D n i t = 1) ∧
    (slideEnd D n i - (D / n) / 3 ≤ t → t < slideEnd D n i →
      slideAlpha D n i t = (slideEnd D n i - t) / ((D / n) / 3)) ∧
    (slideEnd D n i ≤ t → slideAlpha D n i t = 0) := by
  have hnq : (0 : ℚ) < (n : ℚ) := by exact_mod_cast hn
  have hpt : 0 < D / (n : ℚ) := div_pos hD hnq
  have hkey : slideEnd D n i = slideStart D n i + D / (n : ℚ) := by
    simp only [slideStart, slideEnd]
    ring
  refine ⟨rfl, rfl, ?_, ?_, ?_, ?_⟩
  · intro ht
    simp only [slideAlpha]
    rw [if_pos ht]
  · intro h1 h2
    simp only [slideAlpha]
    rw [if_neg (not_lt.mpr h1)]
    by_cases hf : t < slideStart D n i + (D / (n : ℚ)) / 3
    · rw [if_pos hf]
    · rw [if_neg hf, if_pos h2]
  · intro h1 h2
    have hc1 : ¬(t < slideStart D n i) := by
      rw [not_lt]
      linarith
    have hc2 : ¬(t < slideStart D n i + (D / (n : ℚ)) / 3) := by
      rw [not_lt]
      linarith
    simp only [slideAlpha]
    rw [if_neg hc1, if_neg hc2, if_neg (not_lt.mpr h1), if_pos h2]
  · intro h1
    have hc1 : ¬(t < slideStart D n i) := by
      rw [not_lt]
      linarith
    have hc2 : ¬(t < slideStart D n i + (D / (n : ℚ)) / 3) := by
      rw [not_lt]
      linarith
    have hc3 : ¬(t < slideEnd D n i - (D / (n : ℚ)) / 3) := by
      rw [not_lt]
      linarith
    simp only [slideAlpha]
    rw [if_neg hc1, if_neg hc2, if_neg hc3, if_neg (not_lt.mpr h1)]

/-- Witness for the amended C9 theorem at the source's concrete duration of
60 seconds with 10 slides, slide 0, time 3. -/
theorem slide_timeline_witness :
    (0 : ℚ) < 60 ∧ (0 : Nat) < 10 ∧
    (slideStart 60 10 0 = (60 / (10 : ℚ)) * 0 ∧
     slideEnd 60 10 0 = (60 / (10 : ℚ)) * (0 + 1) ∧
     ((3 : ℚ) < slideStart 60 10 0 → slideAlpha 60 10 0 3 = 0) ∧
     (slideStart 60 10 0 ≤ 3 → (3 : ℚ) < slideEnd 60 10 0 - (60 / (10 : ℚ)) / 3 →
       slideAlpha 60 10 0 3 = 1) ∧
     (slideEnd 60 10 0 - (60 / (10 : ℚ)) / 3 ≤ 3 → (3 : ℚ) < slideEnd 60 10 0 →
       slideAlpha 60 10 0 3 = (slideEnd 60 10 0 - 3) / ((60 / (10 : ℚ)) / 3)) ∧
     (slideEnd 60 10 0 ≤ 3 → slideAlpha 60 10 0 3 = 0)) :=
  ⟨by norm_num, by norm_num, slide_timeline 60 10 0 3 (by norm_num) (by norm_num)⟩

/-- C8, amended: `notifySubscribers` invokes the registered listeners in
registration order, each at most once; when no listener throws, every
listener is invoked exactly once and no exception escapes, but when the
listener at position k is the first to throw, dispatch stops there — only
listeners 0..k are invoked, the ones after k are never called — and the
exception propagates to the caller (the loop has no per-listener catch). -/
theorem listener_throw_aborts_dispatch (subs : List Listener) :
    ((∀ l ∈ subs, l.throws = false) →
      notifySubscribers subs = ⟨List.range subs.length, none⟩) ∧
    (∀ (k : Nat) (lk : Listener), (∀ l ∈ subs.take k, l.throws = false) →
      subs[k]? = some lk → lk.throws = true →
      notifySubscribers subs = ⟨List.range (k + 1), some k⟩) := by
  constructor
  · intro h
    rw [notifySubscribers, notifyFrom_all_ok subs 0 h, List.range_eq_range']
  · intro k lk hok hget hthrow
    rw [notifySubscribers, notifyFrom_first_throw subs k 0 lk hok hget hthrow,
      List.range_eq_range']
    simp

/-- Witness for the amended C8 theorem: three listeners, the second throws;
the dispatch invokes listeners 0 and 1, skips listener 2 and escapes. -/
theorem listener_throw_aborts_dispatch_witness :
    (∀ l ∈ ([⟨false⟩, ⟨true⟩, ⟨false⟩] : List Listener).take 1,
      l.throws = false) ∧
    ([⟨false⟩, ⟨true⟩, ⟨false⟩] : List Listener)[1]? = some ⟨true⟩ ∧
    (⟨true⟩ : Listener).throws = true ∧
    notifySubscribers [⟨false⟩, ⟨true⟩, ⟨false⟩] = ⟨List.range 2, some 1⟩ :=
  ⟨by decide, by decide, by decide,
   (listener_throw_aborts_dispatch [⟨false⟩, ⟨true⟩, ⟨false⟩]).2 1 ⟨true⟩
     (by decide) (by decide) (by decide)⟩

/-- C8 counterexample: with two registered listeners of which the first
throws, the dispatch loop of `notifySubscribers` invokes only listener 0 —
listener 1 is never called, so not every listener runs — and the exception
escapes to the caller instead of being caught and reported. -/
theorem listener_not_isolated_counterexample :
    notifySubscribers [⟨true⟩, ⟨false⟩] = ⟨[0], some 0⟩ ∧
    ¬((1 : Nat) ∈ (notifySubscribers [⟨true⟩, ⟨false⟩]).invoked) ∧
    ¬((notifySubscribers [⟨true⟩, ⟨false⟩]).escaped = none) := by
  decide

/-- C9 counterexample: with the source's 60-second duration and 10 slides,
slide 0 owns the slot [0, 6] whose first third is [0, 2]; at time 1 the
implemented alpha is already 1, not the ramp value 1/2 a fade-in over the
first third would give, so the slide does not fade in. -/
theorem slide_no_fade_in_counterexample :
    slideAlpha 60 10 0 1 = 1 ∧
    specFadeInAlpha 60 10 0 1 = 1 / 2 ∧
    ¬(slideAlpha 60 10 0 1 = specFadeInAlpha 60 10 0 1) := by
  refine ⟨?_, ?_, ?_⟩ <;> norm_num [slideAlpha, specFadeInAlpha, slideStart, slideEnd]

/-- C3, amended: a suggested-tag array containing any element that matches
neither the id variant nor the name variant fails schema validation as a
whole: `z.array(z.union(...))` rejects the entire batch, the reconciler
aborts with an error, no element — valid ones included — is processed, and
the database is left unchanged (fail-closed for the whole batch, not
fail-open per element). -/
theorem invalid_element_fails_whole_batch (db : DBState) (entryId : Int)
    (elems : List JVal) (h : ∃ e ∈ elems, parseSuggestedTag e = none) :
    (∃ msg, parseSuggestedTags (some (JVal.jarr elems)) = .error msg) ∧
    suggestTagsSampling db entryId (some (JVal.jarr elems)) = (db, true) := by
  have herr : ∃ msg, parseSuggestedTags (some (JVal.jarr elems)) = .error msg :=
    parseSuggestedList_error elems h
  exact ⟨herr, suggestTags_unchanged_of_parse_error db entryId _ herr⟩

/-- Witness for the amended C3 theorem: a batch with one valid id reference
and one malformed element fails whole against a database holding tag 1. -/
theorem invalid_element_fails_whole_batch_witness :
    (∃ e ∈ [JVal.jobj [("id", JVal.jnum 1)], JVal.jobj [("bogus", JVal.jstr "x")]],
      parseSuggestedTag e = none) ∧
    ((∃ msg, parseSuggestedTags
        (some (JVal.jarr
          [JVal.jobj [("id", JVal.jnum 1)],
           JVal.jobj [("bogus", JVal.jstr "x")]])) = .error msg) ∧
     suggestTagsSampling ⟨[⟨1, "t", none⟩], [], 2⟩ 5
        (some (JVal.jarr
          [JVal.jobj [("id", JVal.jnum 1)],
           JVal.jobj [("bogus", JVal.jstr "x")]]))
       = (⟨[⟨1, "t", none⟩], [], 2⟩, true)) :=
  ⟨⟨JVal.jobj [("bogus", JVal.jstr "x")], by simp, rfl⟩,
   invalid_element_fails_whole_batch ⟨[⟨1, "t", none⟩], [], 2⟩ 5
     [JVal.jobj [("id", JVal.jnum 1)], JVal.jobj [("bogus", JVal.jstr "x")]]
     ⟨JVal.jobj [("bogus", JVal.jstr "x")], by simp, rfl⟩⟩

/-- C3 counterexample: the array `[{id: 1}, {bogus: "x"}]` has one element
matching the id variant and one matching neither variant; the claim demands
that only the malformed element be dropped and `{id: 1}` still be processed,
but the validator rejects the whole batch and the reconciler attaches
nothing, even with tag 1 present in the database. -/
theorem malformed_element_fails_batch_counterexample :
    parseSuggestedTag (JVal.jobj [("id", JVal.jnum 1)])
      = some (SuggestedTag.existing 1) ∧
    parseSuggestedTag (JVal.jobj [("bogus", JVal.jstr "x")]) = none ∧
    parseSuggestedTags
      (some (JVal.jarr
        [JVal.jobj [("id", JVal.jnum 1)], JVal.jobj [("bogus", JVal.jstr "x")]]))
      = Except.error "invalid_union" ∧
    suggestTagsSampling ⟨[⟨1, "t", none⟩], [], 2⟩ 5
      (some (JVal.jarr
        [JVal.jobj [("id", JVal.jnum 1)], JVal.jobj [("bogus", JVal.jstr "x")]]))
      = (⟨[⟨1, "t", none⟩], [], 2⟩, true) :=
  ⟨rfl, rfl, rfl, rfl⟩

/-- C4: when the model-response text fails JSON parsing (`none`) or schema
validation (any value the two-variant array schema rejects), the
reconciliation performs no tag attachment at all: the database — and in
particular the target entry's set of attached tags — is identical before and
after the attempt, and the error is rethrown (flag `true`) before the
attachment loop can run. -/
theorem parse_failure_attaches_nothing (db : DBState) (entryId : Int)
    (mr : Option JVal) (h : ∃ msg, parseSuggestedTags mr = .error msg) :
    suggestTagsSampling db entryId mr = (db, true) ∧
    (suggestTagsSampling db entryId mr).1.entryTags = db.entryTags ∧
    entryTagsOf (suggestTagsSampling db entryId mr).1 entryId
      = entryTagsOf db entryId := by
  have heq : suggestTagsSampling db entryId mr = (db, true) :=
    suggestTags_unchanged_of_parse_error db entryId mr h
  exact ⟨heq, by rw [heq], by rw [heq]⟩

/-- Witness for C4: a model response that is not JSON at all (`none`) and a
database with one tag attached to entry 5. -/
theorem parse_failure_attaches_nothing_witness :
    (∃ msg, parseSuggestedTags none = .error msg) ∧
    (suggestTagsSampling ⟨[⟨1, "t", none⟩], [(5, 1)], 2⟩ 5 none
       = (⟨[⟨1, "t", none⟩], [(5, 1)], 2⟩, true) ∧
     (suggestTagsSampling ⟨[⟨1, "t", none⟩], [(5, 1)], 2⟩ 5 none).1.entryTags
       = [(5, 1)] ∧
     entryTagsOf (suggestTagsSampling ⟨[⟨1, "t", none⟩], [(5, 1)], 2⟩ 5 none).1 5
       = entryTagsOf ⟨[⟨1, "t", none⟩], [(5, 1)], 2⟩ 5) :=
  ⟨⟨"json_parse", rfl⟩,
   parse_failure_attaches_nothing ⟨[⟨1, "t", none⟩], [(5, 1)], 2⟩ 5 none
     ⟨"json_parse", rfl⟩⟩

/-- C10: when the connected client's declared capabilities do not include
elicitation, `elicitConfirmation` returns true without sending any
elicitInput request, so a `delete_tag` or `delete_entry` invocation on an
existing entity proceeds straight to the deletion and reports success, with
no user confirmation step. -/
theorem no_elicitation_deletes_unconditionally (db : DBState)
    (entries : List Entry) (caps : Option ClientCapabilities)
    (response : ElicitResult) (tagId entryId : Int)
    (hcaps : hasElicitation caps = false)
    (htag : ∃ t ∈ db.tags, t.id = tagId)
    (hentry : ∃ e ∈ entries, e.id = entryId) :
    elicitConfirmation caps response = (true, false) ∧
    deleteTagHandler db caps response tagId = .ok ⟨false, true, true⟩ ∧
    deleteEntryHandler entries caps response entryId = .ok ⟨false, true, true⟩ := by
  have hconf : elicitConfirmation caps response = (true, false) := by
    simp [elicitConfirmation, hcaps]
  refine ⟨hconf, ?_, ?_⟩
  · rcases htag with ⟨t, hmem, hid⟩
    have hsome : (db.tags.find? (fun x => x.id = tagId)).isSome :=
      List.find?_isSome.mpr ⟨t, hmem, by simp [hid]⟩
    obtain ⟨t0, hfind⟩ := Option.isSome_iff_exists.mp hsome
    unfold deleteTagHandler
    rw [hfind]
    simp [hconf]
  · rcases hentry with ⟨e, hmem, hid⟩
    have hsome : (entries.find? (fun x => x.id = entryId)).isSome :=
      List.find?_isSome.mpr ⟨e, hmem, by simp [hid]⟩
    obtain ⟨e0, hfind⟩ := Option.isSome_iff_exists.mp hsome
    unfold deleteEntryHandler
    rw [hfind]
    simp [hconf]

/-- Witness for C10: a client with no declared capabilities deleting tag 1
and entry 5, both present. -/
theorem no_elicitation_deletes_unconditionally_witness :
    hasElicitation none = false ∧
    (∃ t ∈ (⟨[⟨1, "t", none⟩], [], 2⟩ : DBState).tags, t.id = 1) ∧
    (∃ e ∈ ([⟨5, "hello"⟩] : List Entry), e.id = 5) ∧
    (elicitConfirmation none ⟨ElicitAction.decline, none⟩ = (true, false) ∧
     deleteTagHandler ⟨[⟨1, "t", none⟩], [], 2⟩ none
        ⟨ElicitAction.decline, none⟩ 1 = .ok ⟨false, true, true⟩ ∧
     deleteEntryHandler [⟨5, "hello"⟩] none
        ⟨ElicitAction.decline, none⟩ 5 = .ok ⟨false, true, true⟩) :=
  ⟨rfl, ⟨⟨1, "t", none⟩, by simp, rfl⟩, ⟨⟨5, "hello"⟩, by simp, rfl⟩,
   no_elicitation_deletes_unconditionally ⟨[⟨1, "t", none⟩], [], 2⟩
     [⟨5, "hello"⟩] none ⟨ElicitAction.decline, none⟩ 1 5 rfl
     ⟨⟨1, "t", none⟩, by simp, rfl⟩ ⟨⟨5, "hello"⟩, by simp, rfl⟩⟩

end EpicMe
